import Mathlib

/-!
Verification of the terminal file-manager application (src/main.rs): the
application state, its key-event transitions, the directory scan, the file
load/save operations, the external status command, and the render pass are
shallowly embedded below, and the stated properties are settled against them.

Modelling conventions:
  * File-system reads and writes, and the external `git status` process, are
    oracles passed to each operation (`fsRead`, `fsWrite`, `gitOut`): the code
    under verification only branches on their `Ok`/`Err` result, which the
    oracle supplies.
  * A Rust panic (out-of-bounds `Vec` indexing, arithmetic overflow reaching
    an index) is modelled by the transition returning `none`.
  * `usize` arithmetic is `Nat` with explicit wrapping modulo `2 ^ 64` where
    the source can underflow (release-build semantics; in a debug build the
    same expression panics, and in both builds the transition ends in a
    panic, so the `none` result is build-independent).
-/

/-- The width modulus of `usize` on the 64-bit targets the program runs on. -/
def USIZE : Nat := 2 ^ 64

/-- Wrapping `usize` subtraction of one: `n - 1` in release-build Rust. -/
def wrapPred (n : Nat) : Nat := (n + USIZE - 1) % USIZE

/-- `Focus` from src/main.rs: which pane receives list-scoped keys. -/
inductive Focus where
  | FileList
  | Editor
  | Log
deriving DecidableEq

/-- ratatui `ListState`: the widget's selection plus scroll bookkeeping. -/
structure ListState where
  selected : Option Nat
  offset : Nat
deriving DecidableEq

/-- `ListState::default()`. -/
def ListState.default : ListState := { selected := none, offset := 0 }

/-- `App` from src/main.rs. Paths are strings with `/`-separated components. -/
structure App where
  project_path : String
  status : String
  logs : List String
  files : List String
  file_list_state : ListState
  current_content : String
  focus : Focus
  should_quit : Bool
deriving DecidableEq

/-- One entry yielded by the `WalkDir` traversal: its path, whether it is a
regular file, its depth below the root (root itself is depth 0), and whether
the walk yielded `Ok` for it (`ok = false` models a traversal error, which
`filter_map(|e| e.ok())` drops). Entries appear in traversal order. -/
structure WalkEntry where
  path : String
  isFile : Bool
  depth : Nat
  ok : Bool
deriving DecidableEq

/-- Split a character list at every occurrence of `sep`, keeping empty pieces:
the character-list form of splitting a string on a one-character separator. -/
def splitList (sep : Char) : List Char → List (List Char)
  | [] => [[]]
  | c :: rest =>
    if c = sep then
      [] :: splitList sep rest
    else
      match splitList sep rest with
      | [] => [[c]]
      | h :: t => (c :: h) :: t

/-- The final component of a `/`-separated path, as `Path::file_name` sees it. -/
def lastComponent (p : String) : String :=
  String.mk (((splitList '/' p.data).getLast?).getD [])

/-- Rust `Path::extension` on a file name: `none` when there is no dot, or the
name is empty, `"."` or `".."`, or the name starts with its only dot (a hidden
file such as `.md`); otherwise the portion after the final dot. -/
def rustExtension (fname : String) : Option String :=
  if fname = "" ∨ fname = "." ∨ fname = ".." then none
  else
    match splitList '.' fname.data with
    | [] => none
    | [_] => none
    | [] :: [_] => none
    | parts => (parts.getLast?).map String.mk

/-- The extension filter of `App::refresh_files`:
`e.path().extension().map_or(false, |ext| ext == "md" || ext == "mdx")`.
The comparison of `OsStr` with `str` is byte-wise, hence case-sensitive. -/
def allowedExtension (path : String) : Bool :=
  match rustExtension (lastComponent path) with
  | some ext => ext == "md" || ext == "mdx"
  | none => false

/-- The `WalkDir::new(root).max_depth(3)` pipeline of `App::refresh_files`:
`entries` is the full traversal in order; `max_depth(3)` keeps depth ≤ 3,
`filter_map(|e| e.ok())` keeps the `Ok` entries, and the extension filter
keeps the allow-listed extensions. The source never checks `is_file()`. -/
def scanFiles (entries : List WalkEntry) : List String :=
  (((entries.filter (fun e => decide (e.depth ≤ 3))).filter
      (fun e => e.ok)).filter
      (fun e => allowedExtension e.path)).map (fun e => e.path)

/-- Second statement of `App::refresh_files`: select index 0 only when the
list is nonempty and nothing was selected. -/
def selectFirstIfNone (app : App) : App :=
  if ¬ app.files.isEmpty ∧ app.file_list_state.selected = none then
    { app with file_list_state := { app.file_list_state with selected := some 0 } }
  else
    app

/-- `App::refresh_files`: wholesale replace `files`, then the selection fix. -/
def refreshFiles (entries : List WalkEntry) (app : App) : App :=
  selectFirstIfNone { app with files := scanFiles entries }

/-- `App::new`: initial state for scan root `cwd`, followed by the startup
rescan over the walk `entries` of that root. -/
def AppNew (cwd : String) (entries : List WalkEntry) : App :=
  refreshFiles entries
    { project_path := cwd
      status := "OFFLINE"
      logs := ["[System] Manager started."]
      files := []
      file_list_state := ListState.default
      current_content := ""
      focus := Focus.FileList
      should_quit := false }

/-- `App::load_selected_file` with read oracle `fsRead` (`some` = `Ok` text,
`none` = `Err`). The source indexes `self.files[i]` unguarded; an
out-of-bounds index is a panic, returned as `none`. -/
def loadSelectedFile (fsRead : String → Option String) (app : App) : Option App :=
  match app.file_list_state.selected with
  | none => some app
  | some i =>
    match app.files.get? i with
    | none => none
    | some p =>
      match fsRead p with
      | some content =>
        some { app with
                 current_content := content
                 logs := app.logs ++ ["[File] Loaded " ++ p] }
      | none => some app

/-- `App::save_current_file` with write oracle `fsWrite` (`true` = `Ok`).
The source indexes `self.files[i]` unguarded; out of bounds is a panic. -/
def saveCurrentFile (fsWrite : String → String → Bool) (app : App) : Option App :=
  match app.file_list_state.selected with
  | none => some app
  | some i =>
    match app.files.get? i with
    | none => none
    | some p =>
      if fsWrite p app.current_content then
        some { app with logs := app.logs ++ ["[File] Saved " ++ p] }
      else
        some app

/-- Strip one trailing carriage return, as `str::lines` does to each line it
has just stripped a terminating newline from. -/
def stripCR (l : List Char) : List Char :=
  if l.getLast? = some '\r' then l.dropLast else l

/-- Rust `str::lines`: split into newline-terminated pieces plus an optional
unterminated final piece. A piece whose terminating newline was stripped also
loses one trailing carriage return; an unterminated final line keeps its
carriage return (for example `"foo\r\nbar\n\nbaz\r"` yields a final line
`"baz\r"`). After splitting on the newline character, every piece except the
last was newline-terminated, and when the text ends in a newline the split's
trailing empty piece is the artifact `str::lines` never produces. -/
def rustLines (s : String) : List String :=
  if s = "" then []
  else
    let parts := splitList '\n' s.data
    if s.data.getLast? = some '\n' then
      (parts.dropLast).map (fun l => String.mk (stripCR l))
    else
      ((parts.dropLast).map (fun l => String.mk (stripCR l)))
        ++ [String.mk ((parts.getLast?).getD [])]

/-- `App::git_status` with spawn oracle `gitOut`: `some out` is a successful
`Command::output()` whose captured stdout decodes to `out`; `none` is a spawn
failure, on which the `if let Ok` body is skipped and nothing is logged. -/
def gitStatus (gitOut : Option String) (app : App) : App :=
  match gitOut with
  | some out =>
    { app with logs := app.logs ++ ("-- Git Status --" :: rustLines out) }
  | none => app

/-- The `Tab` handler's cyclic focus rotation. -/
def nextFocus : Focus → Focus
  | Focus.FileList => Focus.Editor
  | Focus.Editor => Focus.Log
  | Focus.Log => Focus.FileList

/-- The key presses the event loop distinguishes. `other` covers every key
that reaches the final `_ => {}` arm; `up` and `down` fall into that arm
themselves when the focus guard fails, which `step` reproduces. -/
inductive Key where
  | q
  | tab
  | up
  | down
  | g
  | ctrlS
  | r
  | other
deriving DecidableEq

/-- The external world one key press can consult: the read and write results
of the file system and the outcome of spawning the status command. -/
structure Oracles where
  fsRead : String → Option String
  fsWrite : String → String → Bool
  gitOut : Option String

/-- One iteration of the `match key.code` dispatch in `main`, for a key press
`k` under oracle `o`. `none` is a panic. The `down` arm computes
`(i + 1).min(app.files.len() - 1)` where the subtraction wraps when
`files` is empty (see the header comment on build semantics). -/
def step (o : Oracles) (k : Key) (app : App) : Option App :=
  match k with
  | Key.q => some { app with should_quit := true }
  | Key.tab => some { app with focus := nextFocus app.focus }
  | Key.up =>
    if app.focus = Focus.FileList then
      let i := (app.file_list_state.selected).getD 0
      loadSelectedFile o.fsRead
        { app with file_list_state := { app.file_list_state with selected := some (i - 1) } }
    else
      some app
  | Key.down =>
    if app.focus = Focus.FileList then
      let i := (app.file_list_state.selected).getD 0
      let j := min (i + 1) (wrapPred app.files.length)
      loadSelectedFile o.fsRead
        { app with file_list_state := { app.file_list_state with selected := some j } }
    else
      some app
  | Key.g => some (gitStatus o.gitOut app)
  | Key.ctrlS => saveCurrentFile o.fsWrite app
  | Key.r =>
    some { app with
             status := "RUNNING"
             logs := app.logs ++ ["[Docker] Container started on port 3000"] }
  | Key.other => some app

/-- The states the event loop can be in: the startup state for some root and
walk, and everything a non-panicking key press reaches from there. Each press
may see different oracle results. -/
inductive Reachable (cwd : String) (entries : List WalkEntry) : App → Prop
  | init : Reachable cwd entries (AppNew cwd entries)
  | step (o : Oracles) (k : Key) (a b : App) :
      Reachable cwd entries a → step o k a = some b → Reachable cwd entries b

/-- The colors the `ui` function mentions. -/
inductive UiColor where
  | green
  | yellow
  | cyan
  | plain
deriving DecidableEq

/-- Everything the `ui` function draws, as data: header band, file-list items
and highlight, editor pane, the log view (newest first, at most 10 lines),
and the help bar. -/
structure RenderView where
  headerText : String
  headerBorderColor : UiColor
  fileItems : List String
  highlighted : Option Nat
  editorTitle : String
  editorBorderColor : UiColor
  editorText : String
  logView : List String
  helpText : String
deriving DecidableEq

/-- The `ui` function. It receives `&mut App` but only reads `status`,
`project_path`, `files`, `current_content`, `focus` and `logs`; the single
mutable access hands `&mut app.file_list_state` to
`render_stateful_widget`, whose scroll bookkeeping may overwrite that field
with a toolkit-chosen value, modelled by the parameter `widgetState`. The
result is the state after the frame and the drawn content. -/
def ui (app : App) (widgetState : ListState) : App × RenderView :=
  ({ app with file_list_state := widgetState },
   { headerText := " Docusaurus Manager | Status: " ++ app.status
       ++ " | Path: " ++ app.project_path
     headerBorderColor := if app.status == "RUNNING" then UiColor.green else UiColor.yellow
     fileItems := app.files.map (fun p => " 📄 " ++ lastComponent p)
     highlighted := app.file_list_state.selected
     editorTitle := if app.focus = Focus.Editor then " Editor (Editing Mode) " else " Editor "
     editorBorderColor := if app.focus = Focus.Editor then UiColor.cyan else UiColor.plain
     editorText := app.current_content
     logView := (app.logs.reverse).take 10
     helpText := " [q]Quit | [Tab]Switch Focus | [r]Run Docker | [g]Git Status | [Ctrl+s]Save " })

/-! Concrete fixtures used by the closed theorems and witnesses. -/

/-- Walk of the scenario root that holds the regular files `a.md`, `b.mdx`
and `c.txt` at depth 1. -/
def demoEntries : List WalkEntry :=
  [ { path := "root", isFile := false, depth := 0, ok := true },
    { path := "root/a.md", isFile := true, depth := 1, ok := true },
    { path := "root/b.mdx", isFile := true, depth := 1, ok := true },
    { path := "root/c.txt", isFile := true, depth := 1, ok := true } ]

/-- Read oracle on which every file read fails. -/
def noReads : String → Option String := fun _ => none

/-- Oracle bundle on which every external operation fails. -/
def oracle0 : Oracles :=
  { fsRead := noReads, fsWrite := fun _ _ => false, gitOut := none }

/-- Walk entry that is a directory whose name carries the `md` extension. -/
def mdDirEntry : WalkEntry :=
  { path := "root/notes.md", isFile := false, depth := 1, ok := true }

/-- State with one markdown file listed and index 0 selected. -/
def witnessApp : App :=
  { project_path := "root"
    status := "OFFLINE"
    logs := ["[System] Manager started."]
    files := ["root/a.md"]
    file_list_state := { selected := some 0, offset := 0 }
    current_content := "old text"
    focus := Focus.FileList
    should_quit := false }

/-! Helper lemmas shared by the theorems below. -/

/-- Loading never touches the status flag. -/
lemma loadSelectedFile_status (fsRead : String → Option String) (a b : App)
    (h : loadSelectedFile fsRead a = some b) : b.status = a.status := by
  unfold loadSelectedFile at h
  split at h
  · injection h with h; subst h; rfl
  · split at h
    · exact Option.noConfusion h
    · split at h
      · injection h with h; subst h; rfl
      · injection h with h; subst h; rfl

/-- Saving never touches the status flag. -/
lemma saveCurrentFile_status (fsWrite : String → String → Bool) (a b : App)
    (h : saveCurrentFile fsWrite a = some b) : b.status = a.status := by
  unfold saveCurrentFile at h
  split at h
  · injection h with h; subst h; rfl
  · split at h
    · exact Option.noConfusion h
    · split at h
      · injection h with h; subst h; rfl
      · injection h with h; subst h; rfl

/-- The status-command handler never touches the status flag. -/
lemma gitStatus_status (g : Option String) (a : App) :
    (gitStatus g a).status = a.status := by
  cases g <;> rfl

/-- A non-panicking key press either leaves the status flag alone or sets it
to RUNNING. -/
lemma step_status (o : Oracles) (k : Key) (a b : App)
    (h : step o k a = some b) : b.status = a.status ∨ b.status = "RUNNING" := by
  cases k with
  | q => injection h with h; subst h; exact Or.inl rfl
  | tab => injection h with h; subst h; exact Or.inl rfl
  | up =>
    simp only [step] at h
    split at h
    · have hs := loadSelectedFile_status _ _ _ h
      exact Or.inl hs
    · injection h with h; subst h; exact Or.inl rfl
  | down =>
    simp only [step] at h
    split at h
    · have hs := loadSelectedFile_status _ _ _ h
      exact Or.inl hs
    · injection h with h; subst h; exact Or.inl rfl
  | g => injection h with h; subst h; exact Or.inl (gitStatus_status o.gitOut a)
  | ctrlS => exact Or.inl (saveCurrentFile_status _ _ _ h)
  | r => injection h with h; subst h; exact Or.inr rfl
  | other => injection h with h; subst h; exact Or.inl rfl

/-- The startup state has the status flag OFFLINE. -/
lemma AppNew_status (cwd : String) (entries : List WalkEntry) :
    (AppNew cwd entries).status = "OFFLINE" := by
  unfold AppNew refreshFiles selectFirstIfNone
  split <;> rfl

/-! Claim theorems. -/

/-- Claim C1: the claimed invariant — `selectedIndex` in bounds whenever
`Some`, and `None` whenever `fileEntries` is empty, after every transition —
is broken by the code. From the startup state of an empty scan
(`files = []`, `selected = none`) the move-up handler selects index 0 on the
empty list and `load_selected_file` then indexes `self.files[0]`, so the
transition panics instead of keeping `selected = none`. -/
theorem selected_invariant_bug :
    (AppNew "root" []).files = [] ∧
    (AppNew "root" []).file_list_state.selected = none ∧
    step oracle0 Key.up (AppNew "root" []) = none := by
  refine ⟨rfl, rfl, ?_⟩
  decide

/-- Claim C2: the claimed no-op on list navigation over an empty list is
broken by the code. From the startup state of an empty scan, the move-down
handler evaluates `app.files.len() - 1` (a `usize` underflow) and then
`load_selected_file` indexes past the end of the empty list, so the key press
panics rather than leaving the state unchanged. -/
theorem empty_list_down_panics :
    (AppNew "root" []).files = [] ∧
    (AppNew "root" []).file_list_state.selected = none ∧
    step oracle0 Key.down (AppNew "root" []) = none := by
  refine ⟨rfl, rfl, ?_⟩
  decide

/-- Claim C3 counterexample: with the spawn failing, `logLines` gains zero
lines — not the one header line the claim states — and when the command does
run, the header pushed is "-- Git Status --", not "-- Status --". -/
theorem git_status_claim_counterexample :
    (gitStatus none (AppNew "r" [])).logs = (AppNew "r" []).logs ∧
    (AppNew "r" []).logs.length = 1 ∧
    (gitStatus (some "M a.md\n") (AppNew "r" [])).logs
      = ["[System] Manager started.", "-- Git Status --", "M a.md"] ∧
    ("-- Git Status --" : String) ≠ "-- Status --" := by
  refine ⟨rfl, rfl, by decide, by decide⟩

/-- Claim C3 (amended): when the status command spawns successfully, the
handler appends the header line "-- Git Status --" followed by every line of
the captured stdout, in order; when the spawn fails, `logLines` (and the rest
of the state) is unchanged — no header line is appended. -/
theorem git_status_append_spec (out : String) (a : App) :
    gitStatus (some out) a
      = { a with logs := a.logs ++ ("-- Git Status --" :: rustLines out) } ∧
    gitStatus none a = a :=
  ⟨rfl, rfl⟩

/-- Claim C4: when the read of the selected file fails, the key press
completes without panic and the state — editor buffer included — is exactly
what it was before: nothing is loaded and nothing is logged. -/
theorem load_failure_leaves_state (fsRead : String → Option String) (a : App)
    (i : Nat) (p : String)
    (hsel : a.file_list_state.selected = some i)
    (hget : a.files[i]? = some p)
    (hfail : fsRead p = none) :
    loadSelectedFile fsRead a = some a := by
  simp [loadSelectedFile, hsel, hget, hfail]

/-- Witness for C4 at a concrete state: one file listed and selected, every
read failing. -/
theorem load_failure_leaves_state_witness :
    loadSelectedFile noReads witnessApp = some witnessApp :=
  load_failure_leaves_state noReads witnessApp 0 "root/a.md" rfl rfl rfl

/-- Claim C5: with a file selected, saving appends the log line naming the
saved path precisely when the write succeeds, and appends nothing (leaving
the state unchanged) when the write fails. -/
theorem save_logs_success_only (fsWrite : String → String → Bool) (a : App)
    (i : Nat) (p : String)
    (hsel : a.file_list_state.selected = some i)
    (hget : a.files[i]? = some p) :
    (fsWrite p a.current_content = true →
      saveCurrentFile fsWrite a
        = some { a with logs := a.logs ++ ["[File] Saved " ++ p] }) ∧
    (fsWrite p a.current_content = false →
      saveCurrentFile fsWrite a = some a) := by
  constructor <;> intro hw <;> simp [saveCurrentFile, hsel, hget, hw]

/-- Witness for C5 at a concrete state, once with a write oracle that always
succeeds and once with one that always fails. -/
theorem save_logs_success_only_witness :
    saveCurrentFile (fun _ _ => true) witnessApp
      = some { witnessApp with
                 logs := witnessApp.logs ++ ["[File] Saved " ++ "root/a.md"] } ∧
    saveCurrentFile (fun _ _ => false) witnessApp = some witnessApp :=
  ⟨(save_logs_success_only (fun _ _ => true) witnessApp 0 "root/a.md" rfl rfl).1 rfl,
   (save_logs_success_only (fun _ _ => false) witnessApp 0 "root/a.md" rfl rfl).2 rfl⟩

/-- Claim C6: pressing the focus-cycle key three times returns the state to
exactly what it was, and the rotation visits FILE_LIST → EDITOR → LOG →
FILE_LIST. -/
theorem focus_cycle_three (o1 o2 o3 : Oracles) (a : App) :
    ((step o1 Key.tab a).bind (fun b =>
      (step o2 Key.tab b).bind (fun c => step o3 Key.tab c))) = some a ∧
    nextFocus Focus.FileList = Focus.Editor ∧
    nextFocus Focus.Editor = Focus.Log ∧
    nextFocus Focus.Log = Focus.FileList := by
  refine ⟨?_, rfl, rfl, rfl⟩
  obtain ⟨pp, st, lg, fs, ls, cc, f, sq⟩ := a
  cases f <;> rfl

/-- Claim C7 counterexample: the scan includes `root/notes.md` even though
that walk entry is a directory, not a regular file — the source filters only
on the extension and never consults the file type. -/
theorem scan_includes_directory :
    scanFiles [{ path := "root", isFile := false, depth := 0, ok := true },
               mdDirEntry]
      = ["root/notes.md"] ∧
    mdDirEntry.isFile = false :=
  ⟨by decide, rfl⟩

/-- Claim C7 (amended): a path is in the scan result only if some entry of
the walk carries it, was yielded without error at depth at most 3, and its
extension (case-sensitively) is `md` or `mdx` — whether or not that entry is
a regular file; and on the scenario root holding the files `a.md`, `b.mdx`
and `c.txt` at depth 1, the result is exactly `[a.md, b.mdx]`. -/
theorem scan_spec (entries : List WalkEntry) (p : String)
    (hp : p ∈ scanFiles entries) :
    (allowedExtension p = true ∧
      ∃ e, e ∈ entries ∧ e.path = p ∧ e.ok = true ∧ e.depth ≤ 3) ∧
    scanFiles demoEntries = ["root/a.md", "root/b.mdx"] := by
  constructor
  · unfold scanFiles at hp
    simp only [List.mem_map, List.mem_filter, decide_eq_true_eq] at hp
    obtain ⟨e, ⟨⟨⟨he, hd⟩, hok⟩, hext⟩, hpath⟩ := hp
    exact ⟨hpath ▸ hext, e, he, hpath, hok, hd⟩
  · decide

/-- Witness for C7 at the scenario walk and the path `root/a.md`. -/
theorem scan_spec_witness :
    allowedExtension "root/a.md" = true ∧
    ∃ e, e ∈ demoEntries ∧ e.path = "root/a.md" ∧ e.ok = true ∧ e.depth ≤ 3 :=
  (scan_spec demoEntries "root/a.md" (by decide)).1

/-- Claim C8: every press of the run-action key sets the status flag to
RUNNING and appends the one fixed log line; a second press, now on a RUNNING
state, keeps the flag RUNNING and appends the same line once more. -/
theorem run_action_spec (o o2 : Oracles) (a : App) :
    step o Key.r a = some { a with
        status := "RUNNING"
        logs := a.logs ++ ["[Docker] Container started on port 3000"] } ∧
    (step o Key.r a).bind (step o2 Key.r) = some { a with
        status := "RUNNING"
        logs := (a.logs ++ ["[Docker] Container started on port 3000"])
          ++ ["[Docker] Container started on port 3000"] } :=
  ⟨rfl, rfl⟩

/-- Claim C9: one render pass leaves `logLines`, `fileEntries` and the status
flag exactly as they were, whatever scroll bookkeeping the list widget writes
back into the file-list cursor state. -/
theorem ui_reads_only (a : App) (w : ListState) :
    ((ui a w).1).logs = a.logs ∧
    ((ui a w).1).files = a.files ∧
    ((ui a w).1).status = a.status :=
  ⟨rfl, rfl, rfl⟩

/-- Claim C10: the startup state has the status flag OFFLINE; every reachable
state has it OFFLINE or RUNNING; and once a reachable state is RUNNING, no
non-panicking key press brings it back to OFFLINE. -/
theorem status_flag_invariant (cwd : String) (entries : List WalkEntry)
    (a : App) (h : Reachable cwd entries a) :
    (AppNew cwd entries).status = "OFFLINE" ∧
    (a.status = "OFFLINE" ∨ a.status = "RUNNING") ∧
    (∀ (o : Oracles) (k : Key) (b : App), a.status = "RUNNING" →
      step o k a = some b → b.status = "RUNNING") := by
  refine ⟨AppNew_status cwd entries, ?_, ?_⟩
  · induction h with
    | init => exact Or.inl (AppNew_status cwd entries)
    | step o k x y hx hstep ih =>
      rcases step_status o k x y hstep with h1 | h2
      · rw [h1]; exact ih
      · exact Or.inr h2
  · intro o k b hrun hstep
    rcases step_status o k a b hstep with h1 | h2
    · rw [h1]; exact hrun
    · exact h2

/-- Witness for C10 at the startup state of an empty scan, reachable by
`Reachable.init`. -/
theorem status_flag_invariant_witness :
    (AppNew "w" []).status = "OFFLINE" ∧
    ((AppNew "w" []).status = "OFFLINE" ∨ (AppNew "w" []).status = "RUNNING") :=
  ⟨(status_flag_invariant "w" [] (AppNew "w" []) Reachable.init).1,
   (status_flag_invariant "w" [] (AppNew "w" []) Reachable.init).2.1⟩
